import Mathlib

/-!
Verification of the session concurrency manager of `src/telegrambot.py`
(a multi-threaded Telegram bot: one worker per conversation, a shared
registry guarded by one lock, an idle reaper, bounded history with
durable persistence, and reply chunking).

The Python source is shallowly embedded below.  External collaborators
(Gemini generation, Whisper transcription, Azure speech, Telegram file
download) are abstracted as an `Entorno` record of oracle functions; the
functions of the source that wrap them (`detectar_idioma`,
`response_gemini_consulta_documentos`, `response_openweb_transcriptor`,
`response_openweb_lectura`, `adecuar_respuesta`, class `GestorChat`,
`monitor_inactividad`, the dispatch block of `main`) are translated
one-for-one.  Regions executed under `lock_chats` in the source are
modelled as single atomic steps of a transition relation, which is what
the lock discipline guarantees.
-/

namespace TelegramBot

/-- Configuration constant `TIEMPO_INACTIVIDAD_MAX` (src line 25): idle
seconds after which a chat may be evicted from memory. -/
def TIEMPO_INACTIVIDAD_MAX : Nat := 300

/-- Configuration constant `INTERVALO_LIMPIEZA` (src line 26): seconds
between reaper scans. -/
def INTERVALO_LIMPIEZA : Nat := 10

/-- Lookup in the `voces` dict with the default used at the call site
`voces.get(idioma, "es-ES-AlvaroNeural")` (src lines 31-37, 144). -/
def voces_get (idioma : String) : String :=
  if idioma = ("es") then ("es-ES-AlvaroNeural")
  else if idioma = ("en") then ("en-US-GuyNeural")
  else if idioma = ("fr") then ("fr-FR-DeniseNeural")
  else if idioma = ("de") then ("de-DE-KatjaNeural")
  else if idioma = ("it") then ("it-IT-ElsaNeural")
  else ("es-ES-AlvaroNeural")

/-- Lookup in the `voces_largo` dict with the default used at the call
site `voces_largo.get(idioma, "ESPAÑOL")` (src lines 39-41, 84). -/
def voces_largo_get (idioma : String) : String :=
  if idioma = ("es") then ("ESPAÑOL")
  else if idioma = ("en") then ("INGLÉS")
  else if idioma = ("fr") then ("FRANCÉS")
  else if idioma = ("de") then ("ALEMÁN")
  else if idioma = ("it") then ("ITALIANO")
  else ("ESPAÑOL")

/-- A Telegram message as probed by the source: optional audio file id,
optional voice file id, optional text, and the chat id
(`update.message.audio / .voice / .text / .chat.id`). -/
structure Mensaje where
  audio : Option String
  voice : Option String
  text : Option String
  chat : String
deriving DecidableEq

/-- A Telegram update: sequence number and optional message
(`update.update_id`, `update.message`). -/
structure Update where
  update_id : Nat
  message : Option Mensaje
deriving DecidableEq

/-- The external collaborators, abstracted as oracles.
`detect` is the `gemini-2.5-flash-lite` call of `detectar_idioma`;
`generate` is the `gemini-2.5-flash` call of
`response_gemini_consulta_documentos` (its error value is the rendered
exception text `{e}`); `transcribe` is the Whisper HTTP call of
`response_openweb_transcriptor`; `speech` is the Azure TTS call of
`response_openweb_lectura` given a voice and the input text (`none`
models the `except` branch); `obtAudio` is the file download of
`obt_audio`.  Audio payloads are abstracted as strings of bytes. -/
structure Entorno where
  detect : String → Except Unit String
  generate : String → Except String String
  transcribe : String → Except Unit String
  speech : String → String → Option String
  obtAudio : String → String

/-- Python whitespace as stripped by `str.strip()`. -/
def esBlanco (c : Char) : Bool :=
  c = (' ') || c = ('\t') || c = ('\n') || c = ('\r') || c = ('\x0b') || c = ('\x0c')

/-- Model of Python `str.strip()` on a character list: drop whitespace
from both ends. -/
def strip (l : List Char) : List Char :=
  ((l.dropWhile esBlanco).reverse.dropWhile esBlanco).reverse

/-- Embedding of `detectar_idioma` (src lines 45-67): ask the detection
model with the first 50 characters, strip and lowercase the answer; any
exception yields the default language code. -/
def detectar_idioma (env : Entorno) (mensaje : String) : String :=
  match env.detect (mensaje.take 50) with
  | Except.ok t => (String.mk (strip t.data)).toLower
  | Except.error _ => ("es")

/-- Embedding of `response_gemini_consulta_documentos` (src lines
69-106): build the full prompt from the detected language, the previous
history and the new query, call the generation model, and on an
exception `e` return the apologetic error text instead of raising. -/
def response_gemini_consulta_documentos (env : Entorno) (mensaje : String)
    (historial_previo : String) : String :=
  let idioma := detectar_idioma env mensaje
  let prompt_completo :=
    ("\n    Respondes exclusivamente en ") ++ voces_largo_get idioma ++
    (".\n\n    HISTORIAL DE LA CONVERSACIÓN:\n    ") ++ historial_previo ++
    ("\n    \n    NUEVA CONSULTA DEL USUARIO:\n    ") ++ mensaje ++ ("'")
  match env.generate prompt_completo with
  | Except.ok t => t
  | Except.error e => ("Lo siento, hubo un error procesando tu solicitud: ") ++ e

/-- Embedding of `response_openweb_transcriptor` (src lines 108-129):
transcribe audio bytes; any failure yields the empty string. -/
def response_openweb_transcriptor (env : Entorno) (audio : String) : String :=
  match env.transcribe audio with
  | Except.ok t => t
  | Except.error _ => ("")

/-- Embedding of `response_openweb_lectura` (src lines 131-151): detect
the language, pick the voice, call the TTS backend; `none` models the
`except` branch returning `None`. -/
def response_openweb_lectura (env : Entorno) (mensaje : String) : Option String :=
  let idioma := detectar_idioma env mensaje
  env.speech (voces_get idioma) mensaje

/-- Splitting of a character list into consecutive chunks of 4000,
embedding the comprehension
`[respuesta[i:i+4000] for i in range(0, len(respuesta), 4000)]`
(src line 182). -/
def trocear (l : List Char) : List (List Char) :=
  if h : l = [] then []
  else l.take 4000 :: trocear (l.drop 4000)
termination_by l.length
decreasing_by
  simp only [List.length_drop]
  have hl : 0 < l.length := List.length_pos.mpr h
  omega

/-- Embedding of `adecuar_respuesta` (src lines 169-184): a reply
shorter than 4000 characters is sent whole, otherwise it is split into
consecutive 4000-character chunks. -/
def adecuar_respuesta (respuesta : String) : List String :=
  if respuesta.length < 4000 then [respuesta]
  else (trocear respuesta.data).map String.mk

/-- Append on a `collections.deque(maxlen=6)` (src line 209): once the
window exceeds capacity 6, oldest entries are dropped from the left. -/
def deque_append (m : List String) (x : String) : List String :=
  let m2 := m ++ [x]
  if 6 < m2.length then m2.drop (m2.length - 6) else m2

/-- Model of Python `"\n".join` (src lines 246, 312). -/
def joinNl : List String → String
  | [] => ("")
  | [l] => l
  | l :: l2 :: ls => l ++ ("\n") ++ joinNl (l2 :: ls)

/-- Character-list version of `joinNl`, used to reason about the file
contents written by `guardar_historial`. -/
def joinNlL : List (List Char) → List Char
  | [] => []
  | [l] => l
  | l :: l2 :: ls => l ++ ('\n') :: joinNlL (l2 :: ls)

/-- Split a character list at every newline (`str.split`-style: the
separators are consumed, empty fields are kept). -/
def splitNl : List Char → List (List Char)
  | [] => [[]]
  | c :: rest =>
    let r := splitNl rest
    if c = ('\n') then [] :: r
    else
      match r with
      | [] => [[c]]
      | l :: ls => (c :: l) :: ls

/-- Lines produced by iterating over a Python text file with contents
`c` (src line 231, `for linea in f`), with the trailing newline of each
line still to be removed by `strip`: Python yields one line per newline
plus a final line for a nonempty tail, so the empty last field of
`splitNl` is dropped exactly when the contents are empty or end in a
newline. -/
def pyLines (c : List Char) : List (List Char) :=
  let trozos := splitNl c
  if trozos.getLast? = some [] then trozos.dropLast else trozos

/-- Durable storage: one optional file content per conversation id
(the file `chats/{chat_id}.txt`; `none` models a missing file). -/
def Store : Type := String → Option String

/-- The per-conversation worker `GestorChat` (src lines 188-343).
`procesados` and `llegados` are history variables recording, in order,
the events the drain loop has processed and the events ever enqueued;
they shadow the behaviour for the ordering proofs and influence
nothing. -/
structure GestorChat where
  chat_id : String
  cola_mensajes : List Update
  ultima_actividad : Nat
  memoria : List String
  activo : Bool
  procesados : List Update
  llegados : List Update
deriving DecidableEq

/-- Embedding of `GestorChat.cargar_historial` (src lines 220-233): if
the per-chat file exists, append each stripped line of it to the
bounded memory window. -/
def cargar_historial (store : Store) (chat_id : String) (memoria : List String) :
    List String :=
  match store chat_id with
  | none => memoria
  | some contenido =>
    (pyLines contenido.data).foldl
      (fun m linea => deque_append m (String.mk (strip linea))) memoria

/-- Embedding of `GestorChat.guardar_historial` (src lines 235-247):
overwrite the per-chat file with the newline-joined memory window. -/
def guardar_historial (store : Store) (chat_id : String) (memoria : List String) :
    Store :=
  fun id => if id = chat_id then some (joinNl memoria) else store id

/-- Embedding of `GestorChat.__init__` (src lines 193-218): fresh empty
queue, activity stamped now, empty memory window then `cargar_historial`,
`activo` set, and the drain thread started (the thread itself is the
transition `PasoChat.atiende` below). -/
def GestorChat.nuevo (store : Store) (chat_id : String) (ahora : Nat) : GestorChat :=
  { chat_id := chat_id
    cola_mensajes := []
    ultima_actividad := ahora
    memoria := cargar_historial store chat_id []
    activo := true
    procesados := []
    llegados := [] }

/-- Embedding of `GestorChat.agregar_mensaje` (src lines 249-261):
enqueue the update and refresh the activity timestamp. -/
def GestorChat.agregar_mensaje (g : GestorChat) (u : Update) (ahora : Nat) :
    GestorChat :=
  { g with
    cola_mensajes := g.cola_mensajes ++ [u]
    ultima_actividad := ahora
    llegados := g.llegados ++ [u] }

/-- Query extraction of `GestorChat.procesar_update` (src lines
299-307): audio or voice is downloaded and transcribed, otherwise the
text field is used; an event with none of them yields no query. -/
def pregunta_de (env : Entorno) (msg : Mensaje) : Option String :=
  match msg.audio, msg.voice with
  | some fid, _ => some (response_openweb_transcriptor env (env.obtAudio fid))
  | none, some fid => some (response_openweb_transcriptor env (env.obtAudio fid))
  | none, none => msg.text

/-- Embedding of `GestorChat.procesar_update` (src lines 288-330) as a
function of the memory window: returns the new memory window, the text
chunks sent (in send order) and the optional audio attachment sent. -/
def procesar_update (env : Entorno) (memoria : List String) (msg : Mensaje) :
    List String × List String × Option String :=
  match pregunta_de env msg with
  | none => (memoria, [], none)
  | some pregunta =>
    let historial_str := joinNl memoria
    let respuesta := response_gemini_consulta_documentos env pregunta historial_str
    let memoria1 := deque_append memoria (("Usuario: ") ++ pregunta)
    let memoria2 := deque_append memoria1 (("Asistente: ") ++ respuesta)
    (memoria2, adecuar_respuesta respuesta, response_openweb_lectura env respuesta)

/-- One iteration of the drain loop `GestorChat.procesar_cola` (src
lines 263-286): nothing happens when the worker is stopped or the queue
is empty (the 1-second `get` timeout); otherwise the head event is
popped, processed inside the failure-isolating boundary (an update
without a message raises and is swallowed there, leaving memory
untouched), `task_done` consumes it, and the activity timestamp is
refreshed.  Returns the new worker state and what was sent. -/
def atender_uno (env : Entorno) (g : GestorChat) (ahora : Nat) :
    GestorChat × List String × Option String :=
  if g.activo then
    match g.cola_mensajes with
    | [] => (g, [], none)
    | u :: resto =>
      let r :=
        match u.message with
        | some m => procesar_update env g.memoria m
        | none => (g.memoria, [], none)
      ({ g with
          cola_mensajes := resto
          memoria := r.1
          ultima_actividad := ahora
          procesados := g.procesados ++ [u] }, r.2.1, r.2.2)
  else (g, [], none)

/-- Embedding of `GestorChat.detener` (src lines 332-343): clear the
`activo` flag and synchronously save the memory window to the store,
before returning. -/
def detener (store : Store) (g : GestorChat) : GestorChat × Store :=
  ({ g with activo := false }, guardar_historial store g.chat_id g.memoria)

/-- Eligibility test of the reaper (src line 363): the idle time strictly
exceeds `TIEMPO_INACTIVIDAD_MAX` AND the queue is empty at scan time. -/
def elegible (ahora : Nat) (g : GestorChat) : Bool :=
  decide (TIEMPO_INACTIVIDAD_MAX < ahora - g.ultima_actividad) && g.cola_mensajes.isEmpty

/-- Observable lifecycle actions of one reaper scan, in program order:
`detiene id` is the call `gestor.detener()`, `elimina id` the later
`del chats_activos[chat_id]`. -/
inductive Accion where
  | detiene (id : String)
  | elimina (id : String)
deriving DecidableEq

/-- One scan of `monitor_inactividad` (src lines 350-373), the whole
`with lock_chats` block: walk the registry, stop (and thereby persist)
every eligible worker while collecting its id in `eliminar`, then delete
all collected ids in one pass.  Returns the new registry, the new store,
and the ordered action trace (all the stops, then all the deletions). -/
def monitor_scan (ahora : Nat) (reg : List (String × GestorChat)) (store : Store) :
    List (String × GestorChat) × Store × List Accion :=
  let marcados := reg.filter (fun p => elegible ahora p.2)
  let eliminar := marcados.map Prod.fst
  let store2 := marcados.foldl (fun st p => guardar_historial st p.1 p.2.memoria) store
  let reg2 := reg.filter (fun p => ! decide (p.1 ∈ eliminar))
  (reg2, store2, eliminar.map Accion.detiene ++ eliminar.map Accion.elimina)

/-- The dispatch block of `main` for one update carrying a message (src
lines 397-406), the whole `with lock_chats` region: if the chat id is
absent from the registry a fresh worker is constructed (loading its
history) and inserted, then the update is enqueued on the worker of that
chat id. -/
def despachar (store : Store) (reg : List (String × GestorChat)) (m : Mensaje)
    (u : Update) (ahora : Nat) : List (String × GestorChat) :=
  if m.chat ∈ reg.map Prod.fst then
    reg.map (fun p => if p.1 = m.chat then (p.1, p.2.agregar_mensaje u ahora) else p)
  else
    reg ++ [(m.chat, (GestorChat.nuevo store m.chat ahora).agregar_mensaje u ahora)]

/-- Global state: the registry `chats_activos` (src line 347) as an
association list in insertion order, plus the durable store. -/
structure Sistema where
  chats_activos : List (String × GestorChat)
  store : Store

/-- Interleaving semantics of the process.  Each constructor is one
region executed atomically in the source: `mensaje` is the
`with lock_chats` dispatch block of `main`, `limpieza` one
`with lock_chats` scan of `monitor_inactividad`, and `trabajo` one
iteration of some worker's own drain loop (which touches only that
worker's state, never the registry membership). -/
inductive Paso (env : Entorno) : Sistema → Sistema → Prop
  | mensaje (sys : Sistema) (u : Update) (m : Mensaje) (ahora : Nat)
      (hm : u.message = some m) :
      Paso env sys ⟨despachar sys.store sys.chats_activos m u ahora, sys.store⟩
  | limpieza (sys : Sistema) (ahora : Nat) :
      Paso env sys ⟨(monitor_scan ahora sys.chats_activos sys.store).1,
                    (monitor_scan ahora sys.chats_activos sys.store).2.1⟩
  | trabajo (sys : Sistema) (id : String) (ahora : Nat) :
      Paso env sys ⟨sys.chats_activos.map
                      (fun p => if p.1 = id then (p.1, (atender_uno env p.2 ahora).1) else p),
                    sys.store⟩

/-- Steps of one worker in isolation: a producer enqueues (`llega`, the
call `agregar_mensaje` from the dispatch block) or the worker's own
thread runs one drain iteration (`atiende`). -/
inductive PasoChat (env : Entorno) : GestorChat → GestorChat → Prop
  | llega (g : GestorChat) (u : Update) (ahora : Nat) :
      PasoChat env g (g.agregar_mensaje u ahora)
  | atiende (g : GestorChat) (ahora : Nat) :
      PasoChat env g (atender_uno env g ahora).1

/-! Chunking lemmas (claim C5). -/

theorem mk_data (s : String) : String.mk s.data = s := rfl

theorem trocear_join (l : List Char) : (trocear l).join = l := by
  rw [trocear]
  split
  · simp_all
  · have ih := trocear_join (l.drop 4000)
    simp [List.join_cons, ih]
termination_by l.length
decreasing_by
  simp only [List.length_drop]
  rename_i h
  have hl : 0 < l.length := List.length_pos.mpr h
  omega

theorem trocear_mem_length (l : List Char) (c : List Char) (hc : c ∈ trocear l) :
    c.length ≤ 4000 := by
  rw [trocear] at hc
  split at hc
  · simp_all
  · rcases List.mem_cons.mp hc with h1 | h2
    · subst h1; simpa using List.length_take_le 4000 l
    · exact trocear_mem_length (l.drop 4000) c h2
termination_by l.length
decreasing_by
  simp only [List.length_drop]
  have hl : 0 < l.length := List.length_pos.mpr (by assumption)
  omega

theorem trocear_length (l : List Char) (h : l ≠ []) :
    (trocear l).length = (l.length + 3999) / 4000 := by
  rw [trocear]
  rw [dif_neg h]
  have hl : 0 < l.length := List.length_pos.mpr h
  by_cases hd : l.drop 4000 = []
  · have hle : l.length ≤ 4000 := by
      have := List.length_drop 4000 l
      rw [hd] at this
      simp at this
      omega
    rw [show trocear (l.drop 4000) = [] by rw [trocear, dif_pos hd]]
    simp only [List.length_cons, List.length_nil]
    omega
  · have ih := trocear_length (l.drop 4000) hd
    have hgt : 4000 < l.length := by
      by_contra hc
      exact hd (List.drop_eq_nil_of_le (by omega))
    simp only [List.length_cons, ih, List.length_drop]
    omega
termination_by l.length
decreasing_by
  simp only [List.length_drop]
  omega

theorem join_map_mk (ls : List (List Char)) :
    String.join (ls.map String.mk) = String.mk ls.join := by
  suffices h : ∀ acc : String,
      (ls.map String.mk).foldl (fun a b => a ++ b) acc = String.mk (acc.data ++ ls.join) by
    have := h ("")
    simpa [String.join] using this
  induction ls with
  | nil => intro acc; apply String.ext; simp
  | cons l t ih =>
    intro acc
    simp only [List.map_cons, List.foldl_cons, ih]
    apply String.ext
    simp [String.data_append]

/-- C5 (amended): `adecuar_respuesta` splits a reply into chunks whose
concatenation is the original string, each chunk at most 4000
characters long, and the number of chunks is `max 1 ⌈L/4000⌉`: exactly
`⌈L/4000⌉` for every nonempty reply, and one (empty) chunk for the
empty reply. -/
theorem adecuar_respuesta_chunks (s : String) :
    String.join (adecuar_respuesta s) = s
    ∧ ((adecuar_respuesta s).all fun c => decide (c.length ≤ 4000)) = true
    ∧ (adecuar_respuesta s).length = max 1 ((s.length + 3999) / 4000) := by
  unfold adecuar_respuesta
  by_cases h : s.length < 4000
  · rw [if_pos h]
    refine ⟨rfl, by simp; omega, ?_⟩
    simp only [List.length_cons, List.length_nil]
    omega
  · rw [if_neg h]
    have hlen : s.length = s.data.length := rfl
    have hptr : 4000 ≤ s.data.length := by omega
    have hne : s.data ≠ [] := by
      intro hc
      rw [hc] at hptr
      simp at hptr
    refine ⟨?_, ?_, ?_⟩
    · rw [join_map_mk, trocear_join, mk_data]
    · simp only [List.all_eq_true, List.mem_map]
      rintro c ⟨l, hl, rfl⟩
      simpa [String.length_mk] using trocear_mem_length s.data l hl
    · rw [List.length_map, trocear_length s.data hne]
      rw [hlen]
      omega

/-- C5 counterexample: on the empty reply the source returns one chunk
(the empty string) while `⌈0/4000⌉ = 0`, so the chunk count of the
claim fails at length 0. -/
theorem adecuar_respuesta_num_counter :
    ¬ ((adecuar_respuesta ("")).length = (String.length ("") + 3999) / 4000) := by
  decide

/-! Bounded-window lemmas (claim C4) and the shape of `procesar_update`. -/

theorem deque_append_of_lt (m : List String) (x : String) (h : m.length < 6) :
    deque_append m x = m ++ [x] := by
  unfold deque_append
  rw [if_neg]
  simp only [List.length_append, List.length_cons, List.length_nil]
  omega

theorem deque_append_of_eq (m : List String) (x : String) (h : m.length = 6) :
    deque_append m x = m.tail ++ [x] := by
  unfold deque_append
  rw [if_pos (by simp; omega)]
  simp only [List.length_append, List.length_cons, List.length_nil, h]
  rw [show 6 + 1 - 6 = 1 by rfl]
  rw [List.drop_append_of_le_length (by omega), List.drop_one]

theorem deque_append_le (m : List String) (x : String) (h : m.length ≤ 6) :
    (deque_append m x).length ≤ 6 := by
  unfold deque_append
  dsimp only
  split
  · simp only [List.length_drop, List.length_append, List.length_cons, List.length_nil]
    omega
  · rename_i hc
    simp only [List.length_append, List.length_cons, List.length_nil] at hc ⊢
    omega

theorem foldl_deque_le (ls : List (List Char)) : ∀ m : List String, m.length ≤ 6 →
    (ls.foldl (fun m linea => deque_append m (String.mk (strip linea))) m).length ≤ 6 := by
  induction ls with
  | nil => intro m h; simpa using h
  | cons l t ih =>
    intro m h
    simp only [List.foldl_cons]
    exact ih _ (deque_append_le m _ h)

theorem cargar_historial_le (store : Store) (id : String) (m : List String)
    (h : m.length ≤ 6) : (cargar_historial store id m).length ≤ 6 := by
  unfold cargar_historial
  cases store id with
  | none => simpa using h
  | some c => exact foldl_deque_le _ m h

theorem procesar_update_none (env : Entorno) (mem : List String) (msg : Mensaje)
    (hq : pregunta_de env msg = none) :
    procesar_update env mem msg = (mem, [], none) := by
  unfold procesar_update
  rw [hq]

theorem procesar_update_some (env : Entorno) (mem : List String) (msg : Mensaje)
    (q : String) (hq : pregunta_de env msg = some q) :
    procesar_update env mem msg =
      (deque_append (deque_append mem (("Usuario: ") ++ q))
         (("Asistente: ") ++ response_gemini_consulta_documentos env q (joinNl mem)),
       adecuar_respuesta (response_gemini_consulta_documentos env q (joinNl mem)),
       response_openweb_lectura env (response_gemini_consulta_documentos env q (joinNl mem))) := by
  unfold procesar_update
  rw [hq]

theorem procesar_update_le (env : Entorno) (mem : List String) (msg : Mensaje)
    (h : mem.length ≤ 6) : (procesar_update env mem msg).1.length ≤ 6 := by
  cases hq : pregunta_de env msg with
  | none => rw [procesar_update_none env mem msg hq]; simpa using h
  | some q =>
    rw [procesar_update_some env mem msg q hq]
    exact deque_append_le _ _ (deque_append_le _ _ h)

theorem atender_uno_memoria_le (env : Entorno) (g : GestorChat) (ahora : Nat)
    (h : g.memoria.length ≤ 6) : ((atender_uno env g ahora).1).memoria.length ≤ 6 := by
  unfold atender_uno
  split
  · split
    · simpa using h
    · dsimp only
      split
      · rename_i m hm
        simpa using procesar_update_le env g.memoria m h
      · simpa using h
  · simpa using h

/-- C4: the history window never exceeds 6 lines.  Appending into a full
window evicts exactly the oldest line and keeps the order of the rest
(`m.tail ++ [x]`); appending below capacity keeps everything; and the
worker operations touching the window (`cargar_historial`,
`procesar_update`, one drain iteration) all preserve the bound. -/
theorem memoria_window_bound :
    (∀ (m : List String) (x : String), m.length ≤ 6 →
        (deque_append m x).length ≤ 6
        ∧ (m.length = 6 → deque_append m x = m.tail ++ [x])
        ∧ (m.length < 6 → deque_append m x = m ++ [x]))
    ∧ (∀ (store : Store) (id : String) (m : List String), m.length ≤ 6 →
        (cargar_historial store id m).length ≤ 6)
    ∧ (∀ (env : Entorno) (m : List String) (msg : Mensaje), m.length ≤ 6 →
        (procesar_update env m msg).1.length ≤ 6)
    ∧ (∀ (env : Entorno) (g : GestorChat) (ahora : Nat), g.memoria.length ≤ 6 →
        ((atender_uno env g ahora).1).memoria.length ≤ 6) :=
  ⟨fun m x h => ⟨deque_append_le m x h,
      fun h6 => deque_append_of_eq m x h6,
      fun hlt => deque_append_of_lt m x hlt⟩,
   fun store id m h => cargar_historial_le store id m h,
   fun env m msg h => procesar_update_le env m msg h,
   fun env g ahora h => atender_uno_memoria_le env g ahora h⟩

/-- Concrete test environment: detection and transcription fail, the
generation model answers `¡Hola!`, speech synthesis fails. -/
def entornoOk : Entorno :=
  ⟨fun _ => Except.error (), fun _ => Except.ok ("¡Hola!"),
   fun _ => Except.error (), fun _ _ => none, fun _ => ("")⟩

/-- Concrete test environment whose generation call raises `boom`. -/
def entornoErr : Entorno :=
  ⟨fun _ => Except.error (), fun _ => Except.error ("boom"),
   fun _ => Except.error (), fun _ _ => none, fun _ => ("")⟩

/-- The empty durable store (no chat file exists). -/
def storeVacio : Store := fun _ => none

/-- A plain text message `hola` in chat 42. -/
def msgHola : Mensaje := ⟨none, none, some ("hola"), ("42")⟩

theorem memoria_window_bound_witness :
    (deque_append (["a", "b", "c", "d", "e", "f"]) ("g")).length ≤ 6
    ∧ deque_append (["a", "b", "c", "d", "e", "f"]) ("g") = ["b", "c", "d", "e", "f", "g"]
    ∧ (cargar_historial storeVacio ("42") (["a", "b", "c", "d", "e", "f"])).length ≤ 6
    ∧ (procesar_update entornoOk (["a", "b", "c", "d", "e", "f"]) msgHola).1.length ≤ 6 := by
  have h1 := memoria_window_bound.1 (["a", "b", "c", "d", "e", "f"]) ("g") (by decide)
  have h2 := memoria_window_bound.2.1 storeVacio ("42") (["a", "b", "c", "d", "e", "f"]) (by decide)
  have h3 := memoria_window_bound.2.2.1 entornoOk (["a", "b", "c", "d", "e", "f"]) msgHola (by decide)
  exact ⟨h1.1, (h1.2.1 (by decide)).trans (by decide), h2, h3⟩

/-! Per-event processing theorems (claims C7, C6, C10). -/

/-- C7: processing one text event appends exactly two lines to the
history window — the user query tagged `Usuario: `, then the generated
reply tagged `Asistente: ` — in that order (under the capacity-6
eviction of `deque_append`), and sends exactly the chunks of that
reply. -/
theorem procesar_texto (env : Entorno) (mem : List String) (msg : Mensaje) (q : String)
    (hA : msg.audio = none) (hV : msg.voice = none) (hT : msg.text = some q) :
    (procesar_update env mem msg).1 =
      deque_append (deque_append mem (("Usuario: ") ++ q))
        (("Asistente: ") ++ response_gemini_consulta_documentos env q (joinNl mem))
    ∧ (procesar_update env mem msg).2.1 =
      adecuar_respuesta (response_gemini_consulta_documentos env q (joinNl mem)) := by
  have hq : pregunta_de env msg = some q := by
    unfold pregunta_de
    rw [hA, hV, hT]
  rw [procesar_update_some env mem msg q hq]
  exact ⟨rfl, rfl⟩

theorem procesar_texto_witness :
    (procesar_update entornoOk [] msgHola).1 = ["Usuario: hola", "Asistente: ¡Hola!"]
    ∧ (procesar_update entornoOk [] msgHola).2.1 = ["¡Hola!"] := by
  have h := procesar_texto entornoOk [] msgHola ("hola") rfl rfl rfl
  exact ⟨h.1.trans (by decide), h.2.trans (by decide)⟩

/-- C6: when the generation collaborator raises `e`, the worker still
produces a reply — the apologetic error text — instead of propagating
the exception: the chunks sent are exactly the chunks of that error
text (a single chunk whenever it fits in 4000 characters), and the
history still receives the user line followed by the error text as the
assistant line. -/
theorem error_generacion (env : Entorno) (mem : List String) (msg : Mensaje)
    (q e : String) (hg : ∀ p, env.generate p = Except.error e)
    (hq : pregunta_de env msg = some q) :
    (procesar_update env mem msg).2.1 =
      adecuar_respuesta (("Lo siento, hubo un error procesando tu solicitud: ") ++ e)
    ∧ (procesar_update env mem msg).1 =
      deque_append (deque_append mem (("Usuario: ") ++ q))
        (("Asistente: ") ++ (("Lo siento, hubo un error procesando tu solicitud: ") ++ e))
    ∧ ((("Lo siento, hubo un error procesando tu solicitud: ") ++ e).length < 4000 →
        (procesar_update env mem msg).2.1 =
          [("Lo siento, hubo un error procesando tu solicitud: ") ++ e]) := by
  have hr : response_gemini_consulta_documentos env q (joinNl mem) =
      ("Lo siento, hubo un error procesando tu solicitud: ") ++ e := by
    unfold response_gemini_consulta_documentos
    simp only [hg]
  rw [procesar_update_some env mem msg q hq, hr]
  refine ⟨rfl, rfl, fun hlen => ?_⟩
  unfold adecuar_respuesta
  rw [if_pos hlen]

theorem error_generacion_witness :
    (procesar_update entornoErr [] msgHola).2.1 =
      [("Lo siento, hubo un error procesando tu solicitud: boom")]
    ∧ (procesar_update entornoErr [] msgHola).1 =
      ["Usuario: hola", "Asistente: Lo siento, hubo un error procesando tu solicitud: boom"] := by
  have h := error_generacion entornoErr [] msgHola ("hola") ("boom") (fun _ => rfl) (by decide)
  exact ⟨(h.2.2 (by decide)).trans (by decide), h.2.1.trans (by decide)⟩

/-- C10: an audio event whose transcription fails yields the empty
string as the extracted query, not an absent query, so the event is not
skipped: the generation collaborator is still called with the empty
query, `Usuario: ` plus the empty query and the reply are appended to
history, and the reply is sent.  Only an event carrying neither text
nor audio nor voice is skipped with no reply and no history change. -/
theorem transcripcion_vacia :
    (∀ (env : Entorno) (msg : Mensaje) (fid : String),
        (msg.audio = some fid ∨ (msg.audio = none ∧ msg.voice = some fid)) →
        env.transcribe (env.obtAudio fid) = Except.error () →
        pregunta_de env msg = some (""))
    ∧ (∀ (env : Entorno) (mem : List String) (msg : Mensaje),
        pregunta_de env msg = some ("") →
        procesar_update env mem msg =
          (deque_append (deque_append mem (("Usuario: ") ++ ("")))
             (("Asistente: ") ++ response_gemini_consulta_documentos env ("") (joinNl mem)),
           adecuar_respuesta (response_gemini_consulta_documentos env ("") (joinNl mem)),
           response_openweb_lectura env (response_gemini_consulta_documentos env ("") (joinNl mem))))
    ∧ (∀ (env : Entorno) (mem : List String) (msg : Mensaje),
        msg.audio = none → msg.voice = none → msg.text = none →
        procesar_update env mem msg = (mem, [], none)) := by
  refine ⟨?_, ?_, ?_⟩
  · rintro env msg fid (hA | ⟨hA, hV⟩) ht
    · unfold pregunta_de
      rw [hA]
      dsimp only
      unfold response_openweb_transcriptor
      rw [ht]
    · unfold pregunta_de
      rw [hA, hV]
      dsimp only
      unfold response_openweb_transcriptor
      rw [ht]
  · intro env mem msg hq
    exact procesar_update_some env mem msg ("") hq
  · intro env mem msg hA hV hT
    refine procesar_update_none env mem msg ?_
    unfold pregunta_de
    rw [hA, hV, hT]

/-- A voice message in chat 42 with file id `f1`. -/
def msgVoz : Mensaje := ⟨none, some ("f1"), none, ("42")⟩

/-- An update payload carrying neither text nor audio nor voice. -/
def msgNada : Mensaje := ⟨none, none, none, ("42")⟩

theorem transcripcion_vacia_witness :
    pregunta_de entornoOk msgVoz = some ("")
    ∧ (procesar_update entornoOk [] msgVoz).1 = ["Usuario: ", "Asistente: ¡Hola!"]
    ∧ procesar_update entornoOk [] msgNada = ([], [], none) := by
  have h1 := transcripcion_vacia.1 entornoOk msgVoz ("f1") (Or.inr ⟨rfl, rfl⟩) rfl
  have h2 := transcripcion_vacia.2.1 entornoOk [] msgVoz h1
  have h3 := transcripcion_vacia.2.2 entornoOk [] msgNada rfl rfl rfl
  refine ⟨h1, ?_, h3⟩
  rw [h2]
  decide

/-! Persistence round-trip (claim C8). -/

theorem joinNl_data : (mem : List String) →
    (joinNl mem).data = joinNlL (mem.map String.data)
  | [] => rfl
  | [_] => rfl
  | l :: l2 :: ls => by
    simp only [joinNl, joinNlL, List.map_cons, String.data_append,
      joinNl_data (l2 :: ls)]
    simp

theorem splitNl_no_nl : (l : List Char) → ('\n') ∉ l → splitNl l = [l]
  | [], _ => rfl
  | c :: rest, h => by
    have hc : ¬ (c = ('\n')) := fun e => h (e ▸ List.mem_cons_self c rest)
    unfold splitNl
    dsimp only
    rw [if_neg hc, splitNl_no_nl rest (fun hm => h (List.mem_cons_of_mem _ hm))]

theorem splitNl_append : (a : List Char) → (rest : List Char) → ('\n') ∉ a →
    splitNl (a ++ ('\n') :: rest) = a :: splitNl rest
  | [], rest, _ => by
    simp only [List.nil_append]
    rw [splitNl]
    rw [if_pos rfl]
  | c :: a2, rest, h => by
    have hc : ¬ (c = ('\n')) := fun e => h (e ▸ List.mem_cons_self c a2)
    simp only [List.cons_append]
    rw [splitNl]
    rw [if_neg hc, splitNl_append a2 rest (fun hm => h (List.mem_cons_of_mem _ hm))]

theorem splitNl_joinNlL : (ls : List (List Char)) → ls ≠ [] →
    (∀ l ∈ ls, ('\n') ∉ l) → splitNl (joinNlL ls) = ls
  | [], h, _ => absurd rfl h
  | [l], _, h => by
    unfold joinNlL
    exact splitNl_no_nl l (h l (List.mem_cons_self l []))
  | l :: l2 :: ls, _, h => by
    unfold joinNlL
    rw [splitNl_append l (joinNlL (l2 :: ls)) (h l (List.mem_cons_self _ _))]
    rw [splitNl_joinNlL (l2 :: ls) (List.cons_ne_nil l2 ls)
      (fun x hx => h x (List.mem_cons_of_mem _ hx))]

theorem pyLines_joinNlL (ls : List (List Char))
    (h : ∀ l ∈ ls, l ≠ [] ∧ ('\n') ∉ l) : pyLines (joinNlL ls) = ls := by
  cases ls with
  | nil => rfl
  | cons a t =>
    unfold pyLines
    dsimp only
    rw [splitNl_joinNlL (a :: t) (List.cons_ne_nil a t) (fun x hx => (h x hx).2)]
    have hlast : ¬ ((a :: t).getLast? = some ([] : List Char)) := by
      intro hl
      obtain ⟨hne, hgl⟩ := List.mem_getLast?_eq_getLast (Option.mem_def.mpr hl)
      have hmem : ([] : List Char) ∈ a :: t := by
        rw [hgl]
        exact List.getLast_mem hne
      exact (h [] hmem).1 rfl
    rw [if_neg hlast]

theorem cargar_fold : (mem : List String) → ∀ acc : List String,
    (∀ l ∈ mem, String.mk (strip l.data) = l) → acc.length + mem.length ≤ 6 →
    (mem.map String.data).foldl
      (fun m linea => deque_append m (String.mk (strip linea))) acc = acc ++ mem
  | [], acc, _, _ => by simp
  | s :: rest, acc, hok, hlen => by
    simp only [List.map_cons, List.foldl_cons]
    rw [hok s (List.mem_cons_self s rest)]
    rw [deque_append_of_lt acc s (by simp at hlen ⊢; omega)]
    rw [cargar_fold rest (acc ++ [s])
      (fun l hl => hok l (List.mem_cons_of_mem _ hl))
      (by simp at hlen ⊢; omega)]
    simp

/-- C8 (amended): saving a worker history with `guardar_historial` and
loading the written file into a fresh worker with `cargar_historial`
reproduces the history, provided every line of the window is nonempty,
contains no newline character, and is unchanged by whitespace
stripping.  (A line with an embedded newline — possible, since a
multi-line Telegram message becomes one `Usuario:` line — is split into
several lines on reload, so the unconditional round-trip of the claim
fails; see the counterexample.) -/
theorem roundtrip_historial (store : Store) (id : String) (mem : List String)
    (hlen : mem.length ≤ 6)
    (hok : ∀ l ∈ mem, l ≠ ("") ∧ ('\n') ∉ l.data ∧ strip l.data = l.data) :
    cargar_historial (guardar_historial store id mem) id [] = mem := by
  unfold cargar_historial guardar_historial
  rw [if_pos rfl]
  dsimp only
  rw [joinNl_data]
  rw [pyLines_joinNlL (mem.map String.data) ?hlines]
  case hlines =>
    intro l hl
    obtain ⟨s, hs, rfl⟩ := List.mem_map.mp hl
    refine ⟨?_, (hok s hs).2.1⟩
    intro hd
    exact ((hok s hs).1) (String.ext hd)
  rw [cargar_fold mem []
    (fun l hl => by rw [(hok l hl).2.2])
    (by simpa using hlen)]
  simp

/-- C8 counterexample: a history line containing an embedded newline
(as produced by a multi-line user message) does not survive the
save/load round-trip — it comes back as two lines. -/
theorem roundtrip_historial_counter :
    cargar_historial (guardar_historial storeVacio ("42") ([("a\nb")])) ("42") []
      ≠ [("a\nb")] := by
  decide

theorem roundtrip_historial_witness :
    cargar_historial
      (guardar_historial storeVacio ("7") (["Usuario: hola", "Asistente: ¡Hola!"]))
      ("7") [] = ["Usuario: hola", "Asistente: ¡Hola!"] :=
  roundtrip_historial storeVacio ("7") (["Usuario: hola", "Asistente: ¡Hola!"])
    (by decide) (by decide)

/-! Stopping a worker (claim C9). -/

/-- C9: `detener` clears the running flag and synchronously saves the
history to the store before returning: once `detener` has returned, the
store maps the chat id to the serialized window, whatever the drain
loop does afterwards (in this embedding the drain iteration
`atender_uno` does not even take the store: the loop performs no
persistence, matching the source where `guardar_historial` is called
only from `detener`). -/
theorem detener_spec (store : Store) (g : GestorChat) :
    (detener store g).1.activo = false
    ∧ (detener store g).2 g.chat_id = some (joinNl g.memoria)
    ∧ (detener store g).1.memoria = g.memoria
    ∧ (detener store g).1.cola_mensajes = g.cola_mensajes := by
  refine ⟨rfl, ?_, rfl, rfl⟩
  show guardar_historial store g.chat_id g.memoria g.chat_id = some (joinNl g.memoria)
  unfold guardar_historial
  rw [if_pos rfl]

/-! FIFO processing (claim C2). -/

/-- One worker step preserves the FIFO invariant relating the processed
log, the pending queue and the arrival log. -/
theorem paso_chat_inv (env : Entorno) {g g2 : GestorChat} (step : PasoChat env g g2)
    (ih : g.procesados ++ g.cola_mensajes = g.llegados) :
    g2.procesados ++ g2.cola_mensajes = g2.llegados := by
  cases step with
  | llega u ahora =>
    simp only [GestorChat.agregar_mensaje]
    rw [← List.append_assoc, ih]
  | atiende ahora =>
    unfold atender_uno
    split
    · split
      · exact ih
      · rename_i u resto heq
        dsimp only
        rw [List.append_assoc]
        simpa [heq] using ih
    · exact ih

/-- C2: in every worker state reachable from a fresh worker by
interleaving enqueues and drain iterations, the processed log followed
by the pending queue is exactly the arrival log — so events are
processed one at a time, in exactly the order they were enqueued, the
processed events being the first `procesados.length` arrivals. -/
theorem fifo_cola (env : Entorno) (store : Store) (id : String) (t0 : Nat)
    (g : GestorChat)
    (h : Relation.ReflTransGen (PasoChat env) (GestorChat.nuevo store id t0) g) :
    g.procesados ++ g.cola_mensajes = g.llegados := by
  induction h with
  | refl => rfl
  | tail hs step ih => exact paso_chat_inv env step ih

/-- A first concrete update (text `hola`). -/
def u1 : Update := ⟨1, some msgHola⟩

/-- A second concrete update (a voice note). -/
def u2 : Update := ⟨2, some msgVoz⟩

theorem fifo_cola_witness :
    ((atender_uno entornoOk
        (((GestorChat.nuevo storeVacio ("42") 0).agregar_mensaje u1 1).agregar_mensaje u2 2)
        3).1).procesados
      ++ ((atender_uno entornoOk
        (((GestorChat.nuevo storeVacio ("42") 0).agregar_mensaje u1 1).agregar_mensaje u2 2)
        3).1).cola_mensajes
      = ((atender_uno entornoOk
        (((GestorChat.nuevo storeVacio ("42") 0).agregar_mensaje u1 1).agregar_mensaje u2 2)
        3).1).llegados
    ∧ ((atender_uno entornoOk
        (((GestorChat.nuevo storeVacio ("42") 0).agregar_mensaje u1 1).agregar_mensaje u2 2)
        3).1).procesados = [u1]
    ∧ ((atender_uno entornoOk
        (((GestorChat.nuevo storeVacio ("42") 0).agregar_mensaje u1 1).agregar_mensaje u2 2)
        3).1).cola_mensajes = [u2] := by
  refine ⟨fifo_cola entornoOk storeVacio ("42") 0 _ ?_, by decide, by decide⟩
  exact Relation.ReflTransGen.tail
    (Relation.ReflTransGen.tail
      (Relation.ReflTransGen.tail Relation.ReflTransGen.refl
        (PasoChat.llega (GestorChat.nuevo storeVacio ("42") 0) u1 1))
      (PasoChat.llega ((GestorChat.nuevo storeVacio ("42") 0).agregar_mensaje u1 1) u2 2))
    (PasoChat.atiende
      (((GestorChat.nuevo storeVacio ("42") 0).agregar_mensaje u1 1).agregar_mensaje u2 2) 3)

/-! The idle reaper (claim C3). -/

/-- In an association list with no duplicate keys, a key determines its
value. -/
theorem asoc_unica {α β : Type} (l : List (α × β)) (hnd : (l.map Prod.fst).Nodup)
    (a : α) (b c : β) (hb : (a, b) ∈ l) (hc : (a, c) ∈ l) : b = c := by
  induction l with
  | nil => cases hb
  | cons p t ih =>
    simp only [List.map_cons, List.nodup_cons] at hnd
    rcases List.mem_cons.mp hb with heqb | hb2
    · rcases List.mem_cons.mp hc with heqc | hc2
      · exact ((Prod.mk.injEq _ _ _ _).mp (heqb.trans heqc.symm)).2
      · exfalso
        have hpa : p.1 = a := by rw [← heqb]
        rw [hpa] at hnd
        exact hnd.1 (List.mem_map.mpr ⟨(a, c), hc2, rfl⟩)
    · rcases List.mem_cons.mp hc with heqc | hc2
      · exfalso
        have hpa : p.1 = a := by rw [← heqc]
        rw [hpa] at hnd
        exact hnd.1 (List.mem_map.mpr ⟨(a, b), hb2, rfl⟩)
      · exact ih hnd.2 hb2 hc2

/-- The eligibility test of the scan, in propositional form. -/
theorem elegible_iff (ahora : Nat) (g : GestorChat) :
    elegible ahora g = true ↔
      (TIEMPO_INACTIVIDAD_MAX < ahora - g.ultima_actividad ∧ g.cola_mensajes = []) := by
  unfold elegible
  rw [Bool.and_eq_true, decide_eq_true_eq, List.isEmpty_iff]

/-- Membership of a chat id in the removal list of a scan is exactly
eligibility of its (unique) worker. -/
theorem mem_eliminar_iff (ahora : Nat) (reg : List (String × GestorChat))
    (id : String) (g : GestorChat)
    (hnd : (reg.map Prod.fst).Nodup) (hmem : (id, g) ∈ reg) :
    id ∈ (reg.filter (fun p => elegible ahora p.2)).map Prod.fst ↔
      elegible ahora g = true := by
  constructor
  · intro hin
    obtain ⟨p, hp, hfst⟩ := List.mem_map.mp hin
    obtain ⟨hpreg, hpel⟩ := List.mem_filter.mp hp
    have hpe : (id, p.2) ∈ reg := by
      have : p = (id, p.2) := by
        rw [← hfst]
      rw [← this]
      exact hpreg
    have := asoc_unica reg hnd id p.2 g hpe hmem
    rw [← this]
    exact hpel
  · intro hel
    exact List.mem_map_of_mem Prod.fst (List.mem_filter.mpr ⟨hmem, hel⟩)

/-- C3: one reaper scan stops and removes a worker exactly when its
idle time strictly exceeds 300 seconds AND its queue is empty at scan
time; a stale worker with a non-empty queue survives the scan, and for
every reaped id the `detener` action appears strictly before its
removal action in the scan's trace. -/
theorem monitor_reaps_iff (ahora : Nat) (reg : List (String × GestorChat))
    (store : Store) (id : String) (g : GestorChat)
    (hnd : (reg.map Prod.fst).Nodup) (hmem : (id, g) ∈ reg) :
    ((TIEMPO_INACTIVIDAD_MAX < ahora - g.ultima_actividad ∧ g.cola_mensajes = []) ↔
      ∀ g2, (id, g2) ∉ (monitor_scan ahora reg store).1)
    ∧ (¬ (TIEMPO_INACTIVIDAD_MAX < ahora - g.ultima_actividad ∧ g.cola_mensajes = []) →
      (id, g) ∈ (monitor_scan ahora reg store).1)
    ∧ ((TIEMPO_INACTIVIDAD_MAX < ahora - g.ultima_actividad ∧ g.cola_mensajes = []) →
      ∃ i j : Nat, i < j
        ∧ ((monitor_scan ahora reg store).2.2)[i]? = some (Accion.detiene id)
        ∧ ((monitor_scan ahora reg store).2.2)[j]? = some (Accion.elimina id)) := by
  have hres1 : (monitor_scan ahora reg store).1 =
      reg.filter (fun p =>
        ! decide (p.1 ∈ (reg.filter (fun p => elegible ahora p.2)).map Prod.fst)) := rfl
  have hres3 : (monitor_scan ahora reg store).2.2 =
      ((reg.filter (fun p => elegible ahora p.2)).map Prod.fst).map Accion.detiene
      ++ ((reg.filter (fun p => elegible ahora p.2)).map Prod.fst).map Accion.elimina := rfl
  have hkeep : ¬ (TIEMPO_INACTIVIDAD_MAX < ahora - g.ultima_actividad
      ∧ g.cola_mensajes = []) → (id, g) ∈ (monitor_scan ahora reg store).1 := by
    intro hnc
    rw [hres1]
    refine List.mem_filter.mpr ⟨hmem, ?_⟩
    simp only [Bool.not_eq_true', decide_eq_false_iff_not]
    intro hin
    exact hnc ((elegible_iff ahora g).mp
      ((mem_eliminar_iff ahora reg id g hnd hmem).mp hin))
  refine ⟨⟨?_, ?_⟩, hkeep, ?_⟩
  · intro hcond g2 hg2
    rw [hres1] at hg2
    obtain ⟨hg2reg, hg2f⟩ := List.mem_filter.mp hg2
    simp only [Bool.not_eq_true', decide_eq_false_iff_not] at hg2f
    exact hg2f ((mem_eliminar_iff ahora reg id g hnd hmem).mpr
      ((elegible_iff ahora g).mpr hcond))
  · intro hall
    by_contra hnc
    exact hall g (hkeep hnc)
  · intro hcond
    have hin : id ∈ (reg.filter (fun p => elegible ahora p.2)).map Prod.fst :=
      (mem_eliminar_iff ahora reg id g hnd hmem).mpr ((elegible_iff ahora g).mpr hcond)
    obtain ⟨k, hk⟩ := List.mem_iff_getElem?.mp hin
    have hklt : k < ((reg.filter (fun p => elegible ahora p.2)).map Prod.fst).length := by
      rcases List.getElem?_eq_some.mp hk with ⟨hlt, _⟩
      exact hlt
    refine ⟨k, ((reg.filter (fun p => elegible ahora p.2)).map Prod.fst).length + k,
      by omega, ?_, ?_⟩
    · rw [hres3]
      rw [List.getElem?_append]
      rw [if_pos (by simpa using hklt)]
      rw [List.getElem?_map, hk]
      rfl
    · rw [hres3]
      rw [List.getElem?_append_right (by simpa using Nat.le_add_right _ k)]
      simp only [List.length_map]
      rw [Nat.add_sub_cancel_left]
      rw [List.getElem?_map, hk]
      rfl

/-- A stale worker for chat `a`: idle since time 0, empty queue. -/
def gVieja : GestorChat := ⟨("a"), [], 0, [], true, [], []⟩

/-- A stale but busy worker for chat `b`: idle since time 0 but with a
pending event in its queue. -/
def gOcupada : GestorChat := ⟨("b"), [u1], 0, [], true, [], []⟩

/-- A two-worker registry exercising both reaper outcomes. -/
def regW : List (String × GestorChat) := [(("a"), gVieja), (("b"), gOcupada)]

theorem monitor_reaps_iff_witness :
    (∀ g2, (("a"), g2) ∉ (monitor_scan 1000 regW storeVacio).1)
    ∧ (("b"), gOcupada) ∈ (monitor_scan 1000 regW storeVacio).1
    ∧ (∃ i j : Nat, i < j
        ∧ ((monitor_scan 1000 regW storeVacio).2.2)[i]? = some (Accion.detiene ("a"))
        ∧ ((monitor_scan 1000 regW storeVacio).2.2)[j]? = some (Accion.elimina ("a"))) := by
  have ha := monitor_reaps_iff 1000 regW storeVacio ("a") gVieja (by decide) (by decide)
  have hb := monitor_reaps_iff 1000 regW storeVacio ("b") gOcupada (by decide) (by decide)
  exact ⟨ha.1.mp (by decide), hb.2.1 (by decide), ha.2.2 (by decide)⟩

/-! The registry invariant (claim C1). -/

/-- Updating one worker in place never changes the key list of the
registry. -/
theorem claves_actualizar (reg : List (String × GestorChat)) (id : String)
    (f : GestorChat → GestorChat) :
    ((reg.map (fun p => if p.1 = id then (p.1, f p.2) else p)).map Prod.fst)
      = reg.map Prod.fst := by
  induction reg with
  | nil => rfl
  | cons p t ih =>
    simp only [List.map_cons]
    rw [ih]
    congr 1
    split
    · rfl
    · rfl

/-- Every atomic step of the system preserves distinctness of the
registry keys. -/
theorem nodup_paso (env : Entorno) {s1 s2 : Sistema} (step : Paso env s1 s2)
    (ih : (s1.chats_activos.map Prod.fst).Nodup) :
    (s2.chats_activos.map Prod.fst).Nodup := by
  cases step with
  | mensaje u m ahora hm =>
    show ((despachar s1.store s1.chats_activos m u ahora).map Prod.fst).Nodup
    unfold despachar
    split
    · rw [claves_actualizar s1.chats_activos m.chat
        (fun g => g.agregar_mensaje u ahora)]
      exact ih
    · rename_i hno
      simp only [List.map_append, List.map_cons, List.map_nil]
      rw [List.nodup_append]
      exact ⟨ih, List.nodup_singleton _,
        by simpa [List.disjoint_singleton] using hno⟩
  | limpieza ahora =>
    show (((monitor_scan ahora s1.chats_activos s1.store).1).map Prod.fst).Nodup
    have hf : (monitor_scan ahora s1.chats_activos s1.store).1 =
        s1.chats_activos.filter (fun p =>
          ! decide (p.1 ∈ ((s1.chats_activos.filter
            (fun p => elegible ahora p.2)).map Prod.fst))) := rfl
    rw [hf]
    exact ((List.filter_sublist _).map Prod.fst).nodup ih
  | trabajo id ahora =>
    show ((s1.chats_activos.map (fun p =>
        if p.1 = id then (p.1, (atender_uno env p.2 ahora).1) else p)).map Prod.fst).Nodup
    rw [claves_actualizar s1.chats_activos id (fun g => (atender_uno env g ahora).1)]
    exact ih

/-- C1: in every system state reachable from the empty registry by the
atomic lock-guarded regions of the source (dispatch, reaper scan,
worker drain), the registry keys are pairwise distinct — every
conversation id has at most one live worker, so two first-contact
events for the same absent id, necessarily serialized by the lock,
never create two workers. -/
theorem registro_unico (env : Entorno) (store0 : Store) (sys : Sistema)
    (h : Relation.ReflTransGen (Paso env) ⟨[], store0⟩ sys) :
    (sys.chats_activos.map Prod.fst).Nodup
    ∧ ∀ id : String, (sys.chats_activos.map Prod.fst).count id ≤ 1 := by
  have hnd : (sys.chats_activos.map Prod.fst).Nodup := by
    induction h with
    | refl => exact List.nodup_nil
    | tail hs step ih => exact nodup_paso env step ih
  exact ⟨hnd, fun id => List.nodup_iff_count_le_one.mp hnd id⟩

/-- The initial system: empty registry over the empty store. -/
def sisA : Sistema := ⟨[], storeVacio⟩

/-- The system after dispatching a first event for chat 42. -/
def sisB : Sistema := ⟨despachar sisA.store sisA.chats_activos msgHola u1 5, sisA.store⟩

/-- The system after dispatching a second event for the same chat 42. -/
def sisC : Sistema := ⟨despachar sisB.store sisB.chats_activos msgVoz u2 6, sisB.store⟩

theorem registro_unico_witness :
    (sisC.chats_activos.map Prod.fst).Nodup
    ∧ (sisC.chats_activos.map Prod.fst).count ("42") ≤ 1
    ∧ sisC.chats_activos.map Prod.fst = [("42")] := by
  have h := registro_unico entornoOk storeVacio sisC
    (Relation.ReflTransGen.tail
      (Relation.ReflTransGen.tail Relation.ReflTransGen.refl
        (Paso.mensaje sisA u1 msgHola 5 rfl))
      (Paso.mensaje sisB u2 msgVoz 6 rfl))
  exact ⟨h.1, h.2 ("42"), by decide⟩

end TelegramBot
